import Mathlib

/-!
Shallow embedding of the khal event core (parser, serializer, variant
transition engine, relative formatter) and of the configuration helpers
`Namespace.__getattribute__` / `Section._parse_bool_string` from
`src/khal/__init__.py`.

The event module `khal.khalendar.event` itself is not part of the sources;
only its test suite (`src/tests/event_test.py`) is.  Definitions for that
module are therefore modelled from the specification, pinned by the
behaviour the tests in the sources observe; each such definition carries a
doc comment starting with `Modelled from the spec:`.
-/

namespace Khal

/-! ## Digits, padded numerals and their parsers -/

/-- The ASCII digit character for `n % 10`. -/
def digitChar (n : Nat) : Char := Char.ofNat (48 + n % 10)

/-- The numeric value of an ASCII digit character, `none` otherwise. -/
def digitVal (c : Char) : Option Nat :=
  if 48 ≤ c.toNat ∧ c.toNat ≤ 57 then some (c.toNat - 48) else none

/-- Two-digit zero-padded numeral (`n % 100`). -/
def pad2 (n : Nat) : List Char := [digitChar (n / 10), digitChar n]

/-- Four-digit zero-padded numeral (`n % 10000`). -/
def pad4 (n : Nat) : List Char :=
  [digitChar (n / 1000), digitChar (n / 100), digitChar (n / 10), digitChar n]

/-- Parse exactly two digit characters into their value. -/
def parse2 : List Char → Option Nat
  | [a, b] => do
    let x ← digitVal a
    let y ← digitVal b
    pure (10 * x + y)
  | _ => none

/-- Parse exactly four digit characters into their value. -/
def parse4 : List Char → Option Nat
  | [a, b, c, d] => do
    let x ← digitVal a
    let y ← digitVal b
    let z ← digitVal c
    let w ← digitVal d
    pure (1000 * x + 100 * y + 10 * z + w)
  | _ => none

/-! ## Dates, times, proleptic-Gregorian day numbers -/

/-- A calendar date (`datetime.date`). -/
structure Date where
  year : Nat
  month : Nat
  day : Nat
deriving DecidableEq

/-- A time of day, minute granularity (khal's formats use `%H:%M` only). -/
structure Time where
  hour : Nat
  minute : Nat
deriving DecidableEq

/-- A naive date-time (`datetime.datetime` without zone). -/
structure DateTime where
  date : Date
  time : Time
deriving DecidableEq

def isLeap (y : Nat) : Bool := y % 4 == 0 && (y % 100 != 0 || y % 400 == 0)

def daysInMonth (y m : Nat) : Nat :=
  if m = 2 then (if isLeap y then 29 else 28)
  else if m = 4 ∨ m = 6 ∨ m = 9 ∨ m = 11 then 30
  else 31

/-- Days in months `1..m-1` of year `y`. -/
def daysBeforeMonth (y : Nat) : Nat → Nat
  | 0 => 0
  | m + 1 => if m = 0 then 0 else daysBeforeMonth y m + daysInMonth y m

/-- Proleptic Gregorian ordinal, as in Python's `date.toordinal`
(0001-01-01 has ordinal 1). -/
def Date.toOrdinal (d : Date) : Nat :=
  let n := d.year - 1
  n * 365 + n / 4 - n / 100 + n / 400 + daysBeforeMonth d.year d.month + d.day

/-- Inverse of `Date.toOrdinal` (civil-from-days algorithm). -/
def ordinalToDate (n : Nat) : Date :=
  let z := n + 305
  let era := z / 146097
  let doe := z % 146097
  let yoe := (doe - doe / 1460 + doe / 36524 - doe / 146096) / 365
  let y := yoe + era * 400
  let doy := doe - (365 * yoe + yoe / 4 - yoe / 100)
  let mp := (5 * doy + 2) / 153
  let d := doy - (153 * mp + 2) / 5 + 1
  let m := if mp < 10 then mp + 3 else mp - 9
  { year := if m ≤ 2 then y + 1 else y, month := m, day := d }

/-- Minutes since the epoch of ordinal 0. -/
def DateTime.toMin (dt : DateTime) : Nat :=
  dt.date.toOrdinal * 1440 + dt.time.hour * 60 + dt.time.minute

def minToDT (n : Nat) : DateTime :=
  { date := ordinalToDate (n / 1440),
    time := { hour := n % 1440 / 60, minute := n % 60 } }

/-- Shift a naive date-time by a signed number of minutes. -/
def DateTime.addMinutes (dt : DateTime) (k : Int) : DateTime :=
  minToDT ((dt.toMin : Int) + k).toNat

/-- Field-range validity as enforced by Python's `datetime` constructors. -/
def Date.valid (d : Date) : Prop :=
  1 ≤ d.year ∧ d.year ≤ 9999 ∧ 1 ≤ d.month ∧ d.month ≤ 12 ∧
    1 ≤ d.day ∧ d.day ≤ daysInMonth d.year d.month

instance (d : Date) : Decidable d.valid := by
  unfold Date.valid
  infer_instance

def Time.valid (t : Time) : Prop := t.hour ≤ 23 ∧ t.minute ≤ 59

instance (t : Time) : Decidable t.valid := by
  unfold Time.valid
  infer_instance

def DateTime.valid (dt : DateTime) : Prop := dt.date.valid ∧ dt.time.valid

instance (dt : DateTime) : Decidable dt.valid := by
  unfold DateTime.valid
  infer_instance

/-! ## Timezones -/

/-- Modelled from the spec: one transition rule of a timezone (the data the
serializer emits into a `STANDARD` or `DAYLIGHT` block of a synthesized
`VTIMEZONE`).  Offsets are minutes east of UTC; the rule's `DTSTART` and
`RRULE` property values are kept as opaque text. -/
structure TzRule where
  offsetFrom : Int
  offsetTo : Int
  tzname : String
  ruleStart : String
  ruleRec : String
deriving DecidableEq

/-- Modelled from the spec: an IANA zone handle.  `utcOffset` is the offset
(minutes east of UTC) in effect for the date-times under consideration; the
fine structure of daylight-saving transitions is kept only as the rule data
needed for the synthesized `VTIMEZONE` block (`daylight = none` for zones
with no daylight-saving transitions). -/
structure Timezone where
  tzid : String
  utcOffset : Int
  standard : TzRule
  daylight : Option TzRule
deriving DecidableEq

/-- Convert a date-time anchored in `tz` to wall-clock time in `localTz`. -/
def toLocalTime (dt : DateTime) (tz localTz : Timezone) : DateTime :=
  dt.addMinutes (localTz.utcOffset - tz.utcOffset)

/-! ## The event data model -/

/-- Modelled from the spec: the shape of a temporal value, which fixes the
event variant — a bare date (AllDayEvent), a naive date-time
(FloatingEvent), or a zone-anchored date-time (LocalizedEvent). -/
inductive EventTime where
  | allday (d : Date)
  | floating (dt : DateTime)
  | localized (dt : DateTime) (tz : Timezone)
deriving DecidableEq

/-- Modelled from the spec: the variant tags (mutually exclusive
classification). -/
inductive Variant where
  | allday
  | floating
  | localized
deriving DecidableEq

/-- Modelled from the spec: the classification decision used by both
parsing and editing — the variant is derived from the shape of the
temporal value. -/
def classify : EventTime → Variant
  | .allday _ => .allday
  | .floating _ => .floating
  | .localized _ _ => .localized

/-- Comparison key in minutes (UTC for zone-anchored values, naive
wall-clock otherwise; a bare date counts as its midnight). -/
def EventTime.instantMin : EventTime → Int
  | .allday d => (d.toOrdinal * 1440 : Nat)
  | .floating dt => (dt.toMin : Nat)
  | .localized dt tz => (dt.toMin : Int) - tz.utcOffset

def EventTime.valid : EventTime → Prop
  | .allday d => d.valid
  | .floating dt => dt.valid
  | .localized dt _ => dt.valid

instance (et : EventTime) : Decidable et.valid := by
  cases et <;> (unfold EventTime.valid; infer_instance)

/-- Modelled from the spec: the read-only locale configuration bundle. -/
structure Locale where
  default_timezone : Timezone
  local_timezone : Timezone
  timeformat : String
  dateformat : String
  longdateformat : String
  datetimeformat : String
  longdatetimeformat : String
  unicode_symbols : Bool
deriving DecidableEq

/-- Modelled from the spec: an event; the variant is the classification of
the shape of its start value.  `rrule` keeps the raw recurrence rule text
when a recurrence-rule property is present. -/
structure Event where
  uid : String
  summary : String
  start : EventTime
  stop : EventTime
  rrule : Option String
  calendar : String
  href : Option String
  etag : Option String
  locale : Locale
deriving DecidableEq

/-- Modelled from the spec: `recurring` is derived from the presence of a
recurrence rule. -/
def Event.recurring (e : Event) : Bool := e.rrule.isSome

/-- The variant of an event, derived from the shape of its start. -/
def Event.variant (e : Event) : Variant := classify e.start

/-! ## The interchange text model

An interchange text block is modelled at the granularity the tests'
`normalize_component` observes: named components holding content lines
(property name, parameters, value) and subcomponents.  Incidental
whitespace and line folding are below this granularity and are already
normalized away.  The nesting needed here is fixed (calendar > event /
timezone > transition rule), so components are modelled at three levels. -/

structure ContentLine where
  name : String
  params : List (String × String)
  value : String
deriving DecidableEq

/-- An innermost component (a `STANDARD` or `DAYLIGHT` block). -/
structure Leaf where
  name : String
  props : List ContentLine
deriving DecidableEq

/-- A mid-level component (a `VEVENT` or `VTIMEZONE`). -/
structure Node where
  name : String
  props : List ContentLine
  subs : List Leaf
deriving DecidableEq

/-- A top-level block of interchange text (a `VCALENDAR`, or a bare
`VEVENT` with no subcomponents). -/
structure Component where
  name : String
  props : List ContentLine
  subs : List Node
deriving DecidableEq

/-! ## Value parsers and printers -/

/-- Parse a `YYYYMMDD` basic-format date value, validating ranges the way
Python's `datetime.date` constructor does. -/
def parseDateChars : List Char → Option Date
  | [a, b, c, d, e, f, g, h] => do
    let y ← parse4 [a, b, c, d]
    let mo ← parse2 [e, f]
    let da ← parse2 [g, h]
    let dte : Date := ⟨y, mo, da⟩
    if dte.valid then some dte else none
  | _ => none

/-- Parse an `HHMMSS` time value; sub-minute precision is below the
granularity of this model (khal's display formats are `%H:%M`). -/
def parseTimeChars : List Char → Option Time
  | [a, b, c, d, e, f] => do
    let h ← parse2 [a, b]
    let mi ← parse2 [c, d]
    let sec ← parse2 [e, f]
    let t : Time := ⟨h, mi⟩
    if t.valid ∧ sec ≤ 59 then some t else none
  | _ => none

/-- Parse a `YYYYMMDDTHHMMSS` basic-format date-time value. -/
def parseDateTimeChars : List Char → Option DateTime
  | [a, b, c, d, e, f, g, h, t, i, j, k, l, m, n] =>
    if t = 'T' then do
      let dte ← parseDateChars [a, b, c, d, e, f, g, h]
      let tim ← parseTimeChars [i, j, k, l, m, n]
      pure ⟨dte, tim⟩
    else none
  | _ => none

/-- Leading digit characters of a list, and the rest. -/
def takeDigits : List Char → List Char × List Char
  | [] => ([], [])
  | c :: cs =>
    if (digitVal c).isSome then
      let p := takeDigits cs
      (c :: p.1, p.2)
    else ([], c :: cs)

def digitsVal (ds : List Char) : Nat :=
  ds.foldl (fun a c => a * 10 + ((digitVal c).getD 0)) 0

/-- Hours/minutes part of a duration after `T`: `<n>H`, `<n>M` or
`<n>H<n>M`; result in minutes. -/
def parseDurHM (cs : List Char) : Option Nat :=
  let p1 := takeDigits cs
  match p1.2 with
  | 'H' :: r2 =>
    if p1.1.isEmpty then none
    else
      let p2 := takeDigits r2
      match p2.2 with
      | [] => if p2.1.isEmpty then some (digitsVal p1.1 * 60) else none
      | ['M'] => if p2.1.isEmpty then none
                 else some (digitsVal p1.1 * 60 + digitsVal p2.1)
      | _ => none
  | ['M'] => if p1.1.isEmpty then none else some (digitsVal p1.1)
  | _ => none

/-- Parse an RFC 5545 duration value of the shapes `P<n>D`, `P<n>DT…`,
`PT<n>H`, `PT<n>M`, `PT<n>H<n>M`; result in minutes. -/
def parseDuration (s : String) : Option Nat :=
  match s.data with
  | 'P' :: rest =>
    let p := takeDigits rest
    match p.2 with
    | 'D' :: r2 =>
      if p.1.isEmpty then none
      else
        match r2 with
        | [] => some (digitsVal p.1 * 1440)
        | 'T' :: r3 => (parseDurHM r3).map (· + digitsVal p.1 * 1440)
        | _ => none
    | 'T' :: r2 => if p.1.isEmpty then parseDurHM r2 else none
    | _ => none
  | _ => none

def printDate (d : Date) : String :=
  ⟨pad4 d.year ++ pad2 d.month ++ pad2 d.day⟩

def printDateTime (dt : DateTime) : String :=
  ⟨pad4 dt.date.year ++ pad2 dt.date.month ++ pad2 dt.date.day ++
    'T' :: (pad2 dt.time.hour ++ pad2 dt.time.minute ++ pad2 0)⟩

/-- Offset in minutes rendered as a `±HHMM` UTC-offset value. -/
def printOffsetMin (k : Int) : String :=
  if k < 0 then "-" ++ String.mk (pad2 ((-k).toNat / 60) ++ pad2 ((-k).toNat % 60))
  else "+" ++ String.mk (pad2 (k.toNat / 60) ++ pad2 (k.toNat % 60))

/-! ## The event parser -/

/-- Modelled from the spec: the error taxonomy surfaced by parsing —
`parseError` for absent/malformed/inconsistent temporal fields,
`zoneResolutionError` for an unresolvable timezone identifier. -/
inductive ParseError where
  | parseError
  | zoneResolutionError
deriving DecidableEq

def findProp (nm : String) : List ContentLine → Option ContentLine
  | [] => none
  | p :: ps => if p.name = nm then some p else findProp nm ps

def findNode (nm : String) : List Node → Option Node
  | [] => none
  | n :: ns => if n.name = nm then some n else findNode nm ns

def getParam (key : String) : List (String × String) → Option String
  | [] => none
  | (k, v) :: ps => if k = key then some v else getParam key ps

/-- The zone registry (the role pytz's database plays for khal). -/
def lookupTz (reg : List (String × Timezone)) (z : String) : Option Timezone :=
  match reg with
  | [] => none
  | (k, v) :: ps => if k = z then some v else lookupTz ps z

/-- The zones an event's temporal value mentions resolve, by their
identifier, back to themselves in a registry. -/
def ResolvesET (reg : List (String × Timezone)) : EventTime → Prop
  | .localized _ tz => lookupTz reg tz.tzid = some tz
  | _ => True

instance (reg : List (String × Timezone)) (et : EventTime) :
    Decidable (ResolvesET reg et) := by
  cases et <;> (unfold ResolvesET; infer_instance)

/-- Modelled from the spec: parse and classify one temporal property — a
bare date (`VALUE=DATE`) yields the all-day shape, a date-time with a
`TZID` parameter the zone-anchored shape (resolved against the registry,
failing with `zoneResolutionError` when unknown), a bare date-time the
floating shape. -/
def parseTemporal (reg : List (String × Timezone)) (p : ContentLine) :
    Except ParseError EventTime :=
  if getParam "VALUE" p.params = some "DATE" then
    match parseDateChars p.value.data with
    | some d => .ok (.allday d)
    | none => .error .parseError
  else
    match parseDateTimeChars p.value.data with
    | none => .error .parseError
    | some dt =>
      match getParam "TZID" p.params with
      | none => .ok (.floating dt)
      | some z =>
        match lookupTz reg z with
        | some tz => .ok (.localized dt tz)
        | none => .error .zoneResolutionError

/-- Shift a temporal value by a duration in minutes (a bare date moves by
whole days, as Python's `date + timedelta` does). -/
def EventTime.addMin : EventTime → Nat → EventTime
  | .allday d, k => .allday (ordinalToDate ((d.toOrdinal * 1440 + k) / 1440))
  | .floating dt, k => .floating (dt.addMinutes k)
  | .localized dt tz, k => .localized (dt.addMinutes k) tz

/-- Modelled from the spec: end resolution — the explicit `DTEND` property
when present; else start plus the explicit `DURATION` property; else the
start itself (zero-length). -/
def resolveStop (reg : List (String × Timezone)) (props : List ContentLine)
    (st : EventTime) : Except ParseError EventTime :=
  match findProp "DTEND" props with
  | some de => parseTemporal reg de
  | none =>
    match findProp "DURATION" props with
    | some du =>
      match parseDuration du.value with
      | some k => .ok (st.addMin k)
      | none => .error .parseError
    | none => .ok st

/-- The event component a text block designates: the block itself when it
is a bare `VEVENT`, else the first `VEVENT` it contains. -/
def veventProps (text : Component) : Option (List ContentLine) :=
  if text.name = "VEVENT" then some text.props
  else (findNode "VEVENT" text.subs).map Node.props

/-- Modelled from the spec: `Event.fromString` — parse one interchange
text block (a bare `VEVENT`, or a calendar containing one) into the event
variant implied by the shape of its temporal fields; fails with a
`ParseError` when the temporal or summary fields are absent, malformed or
internally inconsistent (end before start). -/
def Event.fromString (reg : List (String × Timezone)) (text : Component)
    (href etag : Option String) (calendar : String) (locale : Locale) :
    Except ParseError Event :=
  match veventProps text with
  | none => .error .parseError
  | some props =>
    match findProp "SUMMARY" props with
    | none => .error .parseError
    | some sm =>
      match findProp "DTSTART" props with
      | none => .error .parseError
      | some ds =>
        match parseTemporal reg ds with
        | .error err => .error err
        | .ok st =>
          match resolveStop reg props st with
          | .error err => .error err
          | .ok en =>
            if en.instantMin < st.instantMin then .error .parseError
            else .ok {
              uid := ((findProp "UID" props).map ContentLine.value).getD "",
              summary := sm.value,
              start := st,
              stop := en,
              rrule := (findProp "RRULE" props).map ContentLine.value,
              calendar := calendar,
              href := href,
              etag := etag,
              locale := locale }

/-! ## The serializer -/

def tzRuleLeaf (nm : String) (r : TzRule) : Leaf :=
  { name := nm,
    props := [
      ⟨"TZOFFSETFROM", [], printOffsetMin r.offsetFrom⟩,
      ⟨"TZOFFSETTO", [], printOffsetMin r.offsetTo⟩,
      ⟨"TZNAME", [], r.tzname⟩,
      ⟨"DTSTART", [], r.ruleStart⟩,
      ⟨"RRULE", [], r.ruleRec⟩] }

/-- Modelled from the spec: the synthesized self-contained
timezone-transition block; a zone with no daylight-saving transitions
yields a syntactically valid single-rule block rather than none. -/
def tzBlock (tz : Timezone) : Node :=
  { name := "VTIMEZONE",
    props := [⟨"TZID", [], tz.tzid⟩],
    subs :=
      match tz.daylight with
      | none => [tzRuleLeaf "STANDARD" tz.standard]
      | some d => [tzRuleLeaf "DAYLIGHT" d, tzRuleLeaf "STANDARD" tz.standard] }

/-- Serialize a temporal value as a content line. -/
def temporalProp (nm : String) : EventTime → ContentLine
  | .allday d => ⟨nm, [("VALUE", "DATE")], printDate d⟩
  | .floating dt => ⟨nm, [], printDateTime dt⟩
  | .localized dt tz => ⟨nm, [("TZID", tz.tzid)], printDateTime dt⟩

/-- The timezone blocks an event's serialization embeds (one per distinct
zone anchoring its start or end). -/
def eventTzBlocks (e : Event) : List Node :=
  match e.start, e.stop with
  | .localized _ tz1, .localized _ tz2 =>
    if tz2 = tz1 then [tzBlock tz1] else [tzBlock tz1, tzBlock tz2]
  | .localized _ tz1, _ => [tzBlock tz1]
  | _, .localized _ tz2 => [tzBlock tz2]
  | _, _ => []

def veventNode (e : Event) : Node :=
  { name := "VEVENT",
    props := [⟨"UID", [], e.uid⟩, ⟨"SUMMARY", [], e.summary⟩,
        temporalProp "DTSTART" e.start, temporalProp "DTEND" e.stop] ++
      (match e.rrule with
       | some r => [⟨"RRULE", [], r⟩]
       | none => []),
    subs := [] }

/-- Modelled from the spec: the serializer (`toRaw` / the `raw` accessor) —
a normalized calendar block wrapping the event, self-describing for
zone-aware events through embedded synthesized timezone-transition
blocks. -/
def Event.raw (e : Event) : Component :=
  { name := "VCALENDAR",
    props := [⟨"VERSION", [], "2.0"⟩,
      ⟨"PRODID", [], "-//CALENDARSERVER.ORG//NONSGML Version 1//EN"⟩],
    subs := eventTzBlocks e ++ [veventNode e] }

/-! ## Normalization -/

def encodeParam (p : String × String) : String := p.1 ++ "=" ++ p.2

def encodeCL (p : ContentLine) : String :=
  p.name ++ ";" ++ String.intercalate ";" (p.params.map encodeParam) ++ ":" ++ p.value

/-- Lexicographic comparison on code points (the order itself is
incidental: normalization only needs some canonical order). -/
def charListLe : List Char → List Char → Bool
  | [], _ => true
  | _ :: _, [] => false
  | a :: as, b :: bs =>
    if a.toNat < b.toNat then true
    else if b.toNat < a.toNat then false
    else charListLe as bs

def strLe (a b : String) : Bool := charListLe a.data b.data

def insertSorted (s : String) : List String → List String
  | [] => [s]
  | t :: ts => if strLe s t then s :: t :: ts else t :: insertSorted s ts

def sortStrings (l : List String) : List String := l.foldr insertSorted []

def joinCanon (l : List String) : String := String.intercalate "|" (sortStrings l)

def encodeLeaf (lf : Leaf) : String :=
  "<" ++ lf.name ++ "|" ++ joinCanon (lf.props.map encodeCL) ++ ">"

def encodeNode (n : Node) : String :=
  "<" ++ n.name ++ "|" ++ joinCanon (n.props.map encodeCL) ++ "|" ++
    joinCanon (n.subs.map encodeLeaf) ++ ">"

/-- Modelled from the spec: the tests' `normalize_component` — a canonical
rendering of a block that forgets property and component order and
incidental text layout but keeps names, parameters, values and the
component tree. -/
def normalize_component (c : Component) : String :=
  "<" ++ c.name ++ "|" ++ joinCanon (c.props.map encodeCL) ++ "|" ++
    joinCanon (c.subs.map encodeNode) ++ ">"

/-! ## Format templates -/

/-- Interpreter for the strftime directives khal's locale templates use
(`%d`, `%m`, `%Y`, `%H`, `%M`); other characters are literal. -/
def fmtChars : List Char → DateTime → List Char
  | [], _ => []
  | '%' :: c :: rest, dt =>
    (match c with
     | 'd' => pad2 dt.date.day
     | 'm' => pad2 dt.date.month
     | 'Y' => pad4 dt.date.year
     | 'H' => pad2 dt.time.hour
     | 'M' => pad2 dt.time.minute
     | _ => ['%', c]) ++ fmtChars rest dt
  | c :: rest, dt => c :: fmtChars rest dt

def strftime (tpl : String) (dt : DateTime) : String := ⟨fmtChars tpl.data dt⟩

/-! ## The relative formatter -/

/-- Modelled from the spec: the start as a wall-clock date-time for
display — LocalizedEvent times are converted to `local_timezone`, floating
times are taken as-is, a bare date counts as its midnight. -/
def Event.localStartDT (e : Event) : DateTime :=
  match e.start with
  | .allday d => ⟨d, ⟨0, 0⟩⟩
  | .floating dt => dt
  | .localized dt tz => toLocalTime dt tz e.locale.local_timezone

/-- The end counterpart of `Event.localStartDT`. -/
def Event.localStopDT (e : Event) : DateTime :=
  match e.stop with
  | .allday d => ⟨d, ⟨0, 0⟩⟩
  | .floating dt => dt
  | .localized dt tz => toLocalTime dt tz e.locale.local_timezone

/-- The first day of the event in `local_timezone`. -/
def Event.startDay (e : Event) : Date := e.localStartDT.date

/-- The last day of the event in `local_timezone` (inclusive). -/
def Event.stopDay (e : Event) : Date := e.localStopDT.date

/-- Whether the event carries time-of-day; like the variant, derived from
the shape of the start. -/
def Event.timed (e : Event) : Bool :=
  match e.start with
  | .allday _ => false
  | _ => true

def Event.startTimeStr (e : Event) : String :=
  strftime e.locale.timeformat e.localStartDT

def Event.stopTimeStr (e : Event) : String :=
  strftime e.locale.timeformat e.localStopDT

/-- Total order key on dates. -/
def dayKey (d : Date) : Nat := d.toOrdinal

/-- Modelled from the spec: `relativeTo` outside `[startDay, stopDay]` is a
caller bug.  In the Python of this era it surfaces as a `ValueError`; the
spec's taxonomy names it RangeError. -/
inductive RangeError where
  | mk
deriving DecidableEq

/-- Modelled from the spec: glyphs when `unicode_symbols` is set.  The
exact ASCII fallback text is called an external formatting concern and left
unspecified by the spec; placeholders stand in for it and no claim depends
on them. -/
def symRight (uni : Bool) : String := if uni then "→" else "->"

def symFirst (uni : Bool) : String := if uni then "↦ " else "-> "

def symBoth (uni : Bool) : String := if uni then "↔ " else "<-> "

def symLast (uni : Bool) : String := if uni then "⇥ " else "->| "

def symRepeat (uni : Bool) : String := if uni then " ⟳" else " (R)"

/-- Modelled from the spec: the short label of `relativeTo` before
recurrence annotation.  Day boundaries are computed in `local_timezone`;
a reference day outside `[startDay, stopDay]` (inclusive) fails with a
RangeError; the start day takes precedence over the end day for the
multi-day boundary glyphs. -/
def Event.relativeLabel (e : Event) (day : Date) : Except RangeError String :=
  if dayKey day < dayKey e.startDay ∨ dayKey e.stopDay < dayKey day then
    .error .mk
  else
    .ok (
      if dayKey e.startDay = dayKey e.stopDay then
        if e.timed then
          e.startTimeStr ++ "-" ++ e.stopTimeStr ++ ": " ++ e.summary
        else e.summary
      else
        if e.timed then
          if dayKey day = dayKey e.startDay then
            e.startTimeStr ++ symRight e.locale.unicode_symbols ++ " : " ++ e.summary
          else if dayKey day = dayKey e.stopDay then
            symRight e.locale.unicode_symbols ++ " " ++ e.stopTimeStr ++ ": " ++ e.summary
          else
            symRight e.locale.unicode_symbols ++ " " ++
              symRight e.locale.unicode_symbols ++ " : " ++ e.summary
        else
          if dayKey day = dayKey e.startDay then
            symFirst e.locale.unicode_symbols ++ e.summary
          else if dayKey day = dayKey e.stopDay then
            symLast e.locale.unicode_symbols ++ e.summary
          else symBoth e.locale.unicode_symbols ++ e.summary)

/-- Modelled from the spec: `relativeTo` — the short label, with the
trailing recurrence marker appended for recurring events. -/
def Event.relative_to (e : Event) (day : Date) : Except RangeError String :=
  (e.relativeLabel day).map
    (fun l => if e.recurring then l ++ symRepeat e.locale.unicode_symbols else l)

/-- Modelled from the spec and pinned by the tests: the long description
before recurrence annotation.  As `test_event_d_long` observes, the start
of a multi-day all-day event is rendered with `dateformat` (the end with
`longdateformat`). -/
def Event.descBase (e : Event) : String :=
  if dayKey e.startDay = dayKey e.stopDay then
    if e.timed then
      e.startTimeStr ++ "-" ++ e.stopTimeStr ++ " " ++
        strftime e.locale.longdateformat e.localStartDT ++ ": " ++ e.summary
    else
      strftime e.locale.longdateformat e.localStartDT ++ ": " ++ e.summary
  else
    if e.timed then
      strftime e.locale.longdatetimeformat e.localStartDT ++ " - " ++
        strftime e.locale.longdatetimeformat e.localStopDT ++ ": " ++ e.summary
    else
      strftime e.locale.dateformat e.localStartDT ++ " - " ++
        strftime e.locale.longdateformat e.localStopDT ++ ": " ++ e.summary

/-- Modelled from the spec: `description` (the `event_description`
accessor) — the long label, with a `Repeat:` line appended for recurring
events. -/
def Event.event_description (e : Event) : String :=
  e.descBase ++
    (match e.rrule with
     | some r => "\nRepeat: " ++ r
     | none => "")

/-! ## The transition engine -/

/-- Modelled from the spec and pinned by `test_transform_event`: the
transition engine `updateStartEnd`.  In the code it is a method that
mutates `self` — the variant is re-derived from the shapes of the new
start/end (the object's runtime class is replaced) and the temporal fields
are updated, all other fields staying put — and it returns `None`.  The
result models the pair (post-state of the event object, returned value).
Per the spec's invariant check, `newEnd < newStart` is rejected with a
RangeError. -/
def Event.update_start_end (e : Event) (newStart newEnd : EventTime) :
    Except RangeError (Event × Option Event) :=
  if newEnd.instantMin < newStart.instantMin then .error .mk
  else .ok ({ e with start := newStart, stop := newEnd }, none)

/-! ## Namespace (src/khal/__init__.py lines 59-95) -/

/-- A Python `dict` with string keys, modelled as an association list with
unique keys (first match wins; insertion updates in place). -/
def dictGet {α : Type} : List (String × α) → String → Option α
  | [], _ => none
  | (k, v) :: rest, s => if k = s then some v else dictGet rest s

def dictSet {α : Type} : List (String × α) → String → α → List (String × α)
  | [], k, v => [(k, v)]
  | (k', v') :: rest, k, v =>
    if k' = k then (k, v) :: rest else (k', v') :: dictSet rest k v

/-- The khal configuration holder: a dict subclass exposing its items as
attributes. -/
def Namespace (α : Type) : Type := List (String × α)

inductive AttributeError where
  | mk
deriving DecidableEq

/-- `Namespace.__getattribute__` (lines 84-89): `return self[name]`, with a
missing key's `KeyError` re-raised as `AttributeError`. -/
def Namespace.getattribute {α : Type} (n : Namespace α) (s : String) :
    Except AttributeError α :=
  match dictGet n s with
  | some v => .ok v
  | none => .error .mk

/-- `Namespace.__setattr__` (lines 91-92): `self[name] = value`. -/
def Namespace.setattr {α : Type} (n : Namespace α) (s : String) (v : α) :
    Namespace α :=
  dictSet n s v

/-- Names of the standard dict methods that default attribute lookup on a
dict subclass would expose; with the overridden `__getattribute__` they
resolve only as stored keys. -/
def dictMethodNames : List String :=
  ["clear", "copy", "fromkeys", "get", "items", "keys", "pop", "popitem",
    "setdefault", "update", "values"]

/-! ## Section (src/khal/__init__.py lines 149-158) -/

/-- A Python value that is either a bool or a string, as returned by
`Section._parse_bool_string`. -/
inductive PyValue where
  | pyBool (b : Bool)
  | pyStr (s : String)
deriving DecidableEq

/-- ASCII lowercasing of one character, as Python's `str.lower` does on
the ASCII range. -/
def lowerChar (c : Char) : Char :=
  if 65 ≤ c.toNat ∧ c.toNat ≤ 90 then Char.ofNat (c.toNat + 32) else c

/-- Python `str.lower` (ASCII range). -/
def pyLower (s : String) : String := ⟨s.data.map lowerChar⟩

def isPySpace (c : Char) : Bool :=
  c = ' ' || c = '\t' || c = '\n' || c = '\r' || c = '\x0b' || c = '\x0c'

def dropLeadingSpace : List Char → List Char
  | [] => []
  | c :: cs => if isPySpace c then dropLeadingSpace cs else c :: cs

/-- Python `str.strip` with no argument: whitespace removed at both
ends. -/
def pyStrip (s : String) : String :=
  ⟨(dropLeadingSpace (dropLeadingSpace s.data.reverse).reverse)⟩

/-- Model of `os.path.expanduser` relative to a home directory: expands a
leading `~`; the `~user` form is not modelled (no claim exercises it). -/
def expanduser (home : String) (s : String) : String :=
  match s.data with
  | '~' :: [] => home
  | '~' :: '/' :: rest => home ++ ⟨'/' :: rest⟩
  | _ => s

/-- `Section._parse_bool_string` (lines 149-158).  Note the rebinding
`value = value.strip().lower()` before the comparisons: the string the
else-branch tilde-expands and returns is the stripped, lowercased one, not
the argument. -/
def Section._parse_bool_string (home : String) (value : String) : PyValue :=
  let v := pyLower (pyStrip value)
  if v = "true" then .pyBool true
  else if v = "false" then .pyBool false
  else .pyStr (expanduser home v)

/-! ## Concrete fixtures

Zones and locale mirroring the test suite's `BERLIN`, `BOGOTA` and
`LOCALE`, and interchange blocks mirroring its fixture texts.  The zone
offsets are those in effect at the April 2014 date-times the tests use
(CEST, EDT, COT). -/

def berlin : Timezone :=
  { tzid := "Europe/Berlin", utcOffset := 120,
    standard := ⟨120, 60, "CET", "19961027T030000",
      "FREQ=YEARLY;BYDAY=-1SU;BYMONTH=10"⟩,
    daylight := some ⟨60, 120, "CEST", "19810329T020000",
      "FREQ=YEARLY;BYDAY=-1SU;BYMONTH=3"⟩ }

def newYork : Timezone :=
  { tzid := "America/New_York", utcOffset := -240,
    standard := ⟨-240, -300, "EST", "20071104T020000",
      "FREQ=YEARLY;BYDAY=1SU;BYMONTH=11"⟩,
    daylight := some ⟨-300, -240, "EDT", "20070311T020000",
      "FREQ=YEARLY;BYDAY=2SU;BYMONTH=3"⟩ }

/-- The lucky people in Bogota have no daylight-saving transitions. -/
def bogota : Timezone :=
  { tzid := "America/Bogota", utcOffset := -300,
    standard := ⟨-300, -300, "COT", "19930403T230000", ""⟩,
    daylight := none }

def testRegistry : List (String × Timezone) :=
  [("Europe/Berlin", berlin), ("America/New_York", newYork),
    ("America/Bogota", bogota)]

def testLocale : Locale :=
  { default_timezone := berlin, local_timezone := berlin,
    dateformat := "%d.%m.", timeformat := "%H:%M",
    longdateformat := "%d.%m.%Y", datetimeformat := "%d.%m. %H:%M",
    longdatetimeformat := "%d.%m.%Y %H:%M", unicode_symbols := true }

def calProps : List ContentLine :=
  [⟨"VERSION", [], "2.0"⟩,
    ⟨"PRODID", [], "-//CALENDARSERVER.ORG//NONSGML Version 1//EN"⟩]

/-- A zone-aware event text with no embedded timezone block (the shape of
the `event_dt_simple` fixture, already calendar-wrapped so that the
synthesized timezone block is the round trip's only delta). -/
def event_dt_simple : Component :=
  ⟨"VCALENDAR", calProps,
    [⟨"VEVENT",
      [⟨"UID", [], "V042MJ8B3SJNFXQOJL6P53OFMHJE8Z3VZWOU"⟩,
        ⟨"SUMMARY", [], "An Event"⟩,
        ⟨"DTSTART", [("TZID", "Europe/Berlin")], "20140409T093000"⟩,
        ⟨"DTEND", [("TZID", "Europe/Berlin")], "20140409T103000"⟩],
      []⟩]⟩

/-- A bare all-day event text (the shape of the `event_d` fixture). -/
def event_d : Component :=
  ⟨"VEVENT",
    [⟨"UID", [], "V042MJ8B3SJNFXQOJL6P53OFMHJE8Z3VZWOU"⟩,
      ⟨"SUMMARY", [], "An Event"⟩,
      ⟨"DTSTART", [("VALUE", "DATE")], "20140409"⟩,
      ⟨"DTEND", [("VALUE", "DATE")], "20140409"⟩],
    []⟩

/-- A zone-aware event with a `DURATION` instead of an end (the shape of
the `event_dt_duration` fixture). -/
def event_dt_duration : Component :=
  ⟨"VEVENT",
    [⟨"UID", [], "V042MJ8B3SJNFXQOJL6P53OFMHJE8Z3VZWOU"⟩,
      ⟨"SUMMARY", [], "An Event"⟩,
      ⟨"DTSTART", [("TZID", "Europe/Berlin")], "20140409T093000"⟩,
      ⟨"DURATION", [], "PT1H"⟩],
    []⟩

/-- An all-day event with neither end nor duration (the shape of the
`event_d_same_start_end` fixture). -/
def event_d_same_start_end : Component :=
  ⟨"VEVENT",
    [⟨"UID", [], "V042MJ8B3SJNFXQOJL6P53OFMHJE8Z3VZWOU"⟩,
      ⟨"SUMMARY", [], "An Event"⟩,
      ⟨"DTSTART", [("VALUE", "DATE")], "20140409"⟩],
    []⟩

/-- A multi-day all-day event value (the parse of the `event_d_long`
fixture: 2014-04-09 to 2014-04-11, summary `Another Event`). -/
def eventDLong : Event :=
  { uid := "V042MJ8B3SJNFXQOJL6P53OFMHJE8Z3VZWOU",
    summary := "Another Event",
    start := .allday ⟨2014, 4, 9⟩,
    stop := .allday ⟨2014, 4, 11⟩,
    rrule := none, calendar := "foobar", href := none, etag := none,
    locale := testLocale }

/-- A multi-day timed event value (the parse of the `event_dt_long`
fixture: 2014-04-09 09:30 to 2014-04-12 10:30, Berlin). -/
def eventDtLong : Event :=
  { uid := "V042MJ8B3SJNFXQOJL6P53OFMHJE8Z3VZWOU",
    summary := "An Event",
    start := .localized ⟨⟨2014, 4, 9⟩, ⟨9, 30⟩⟩ berlin,
    stop := .localized ⟨⟨2014, 4, 12⟩, ⟨10, 30⟩⟩ berlin,
    rrule := none, calendar := "foobar", href := none, etag := none,
    locale := testLocale }

/-- A single-day all-day event value (the parse of `event_d`). -/
def eventD : Event :=
  { uid := "V042MJ8B3SJNFXQOJL6P53OFMHJE8Z3VZWOU",
    summary := "An Event",
    start := .allday ⟨2014, 4, 9⟩,
    stop := .allday ⟨2014, 4, 9⟩,
    rrule := none, calendar := "foobar", href := none, etag := none,
    locale := testLocale }

/-- A recurring timed event value (the parse of the `event_dt_rr`
fixture). -/
def eventDtRR : Event :=
  { uid := "V042MJ8B3SJNFXQOJL6P53OFMHJE8Z3VZWOU",
    summary := "An Event",
    start := .localized ⟨⟨2014, 4, 9⟩, ⟨9, 30⟩⟩ berlin,
    stop := .localized ⟨⟨2014, 4, 9⟩, ⟨10, 30⟩⟩ berlin,
    rrule := some "FREQ=DAILY;COUNT=10",
    calendar := "foobar", href := none, etag := none,
    locale := testLocale }

/-- The timed single-day event value 09:30-10:30 Berlin (the parse of
`event_dt_simple`, and of `event_dt_duration` whose end comes from its
`DURATION`). -/
def eventDt : Event :=
  { uid := "V042MJ8B3SJNFXQOJL6P53OFMHJE8Z3VZWOU",
    summary := "An Event",
    start := .localized ⟨⟨2014, 4, 9⟩, ⟨9, 30⟩⟩ berlin,
    stop := .localized ⟨⟨2014, 4, 9⟩, ⟨10, 30⟩⟩ berlin,
    rrule := none, calendar := "foobar", href := none, etag := none,
    locale := testLocale }

/-- A zone-aware start used when transforming `eventD`. -/
def nsLoc : EventTime := .localized ⟨⟨2014, 4, 9⟩, ⟨9, 30⟩⟩ berlin

/-- A zone-aware end used when transforming `eventD`. -/
def neLoc : EventTime := .localized ⟨⟨2014, 4, 9⟩, ⟨10, 30⟩⟩ berlin

/-! ## Helper lemmas -/

theorem digitVal_digitChar (n : Nat) : digitVal (digitChar n) = some (n % 10) := by
  have key : ∀ m, m < 10 → digitVal (Char.ofNat (48 + m)) = some m := by decide
  have h := key (n % 10) (Nat.mod_lt _ (by omega))
  simpa [digitChar] using h

theorem parse2_pad2 (n : Nat) (h : n < 100) : parse2 (pad2 n) = some n := by
  simp only [parse2, pad2, digitVal_digitChar, Option.pure_def, Option.bind_eq_bind,
    Option.some_bind, Option.some.injEq]
  omega

theorem parse4_pad4 (n : Nat) (h : n < 10000) : parse4 (pad4 n) = some n := by
  simp only [parse4, pad4, digitVal_digitChar, Option.pure_def, Option.bind_eq_bind,
    Option.some_bind, Option.some.injEq]
  omega

theorem daysInMonth_le (y m : Nat) : daysInMonth y m ≤ 31 := by
  unfold daysInMonth
  split_ifs <;> omega

/-- `dictSet` followed by `dictGet` at the same key finds the new value. -/
theorem dictGet_dictSet {α : Type} (n : List (String × α)) (s : String) (v : α) :
    dictGet (dictSet n s v) s = some v := by
  induction n with
  | nil => simp [dictSet, dictGet]
  | cons kv rest ih =>
    by_cases h : kv.1 = s
    · simp [dictSet, dictGet, h]
    · simp [dictSet, dictGet, h, ih]

/-- A reference day inside the inclusive day range always gets a label. -/
theorem relative_to_inRange (e : Event) (day : Date)
    (h : ¬ (dayKey day < dayKey e.startDay ∨ dayKey e.stopDay < dayKey day)) :
    ∃ l, e.relative_to day = .ok l := by
  unfold Event.relative_to Event.relativeLabel
  rw [if_neg h]
  exact ⟨_, rfl⟩

theorem parseDateChars_pads (y m dd : Nat) (hval : (⟨y, m, dd⟩ : Date).valid) :
    parseDateChars (pad4 y ++ pad2 m ++ pad2 dd) = some ⟨y, m, dd⟩ := by
  have hb := hval
  obtain ⟨b1, b2, b3, b4, b5, b6⟩ := hb
  dsimp only at b1 b2 b3 b4 b5 b6
  have hd31 := daysInMonth_le y m
  have p4 := parse4_pad4 y (by omega)
  have p2m := parse2_pad2 m (by omega)
  have p2d := parse2_pad2 dd (by omega)
  simp only [pad4, pad2] at p4 p2m p2d
  simp only [pad4, pad2, List.cons_append, List.nil_append, parseDateChars,
    p4, p2m, p2d, Option.pure_def, Option.bind_eq_bind, Option.some_bind,
    if_pos hval]

theorem parseTimeChars_pads (hh mi : Nat) (hval : (⟨hh, mi⟩ : Time).valid) :
    parseTimeChars (pad2 hh ++ pad2 mi ++ pad2 0) = some ⟨hh, mi⟩ := by
  have hb := hval
  obtain ⟨b1, b2⟩ := hb
  dsimp only at b1 b2
  have p2h := parse2_pad2 hh (by omega)
  have p2m := parse2_pad2 mi (by omega)
  have p2z := parse2_pad2 0 (by omega)
  simp only [pad2] at p2h p2m p2z
  simp only [pad2, List.cons_append, List.nil_append, parseTimeChars,
    p2h, p2m, p2z, Option.pure_def, Option.bind_eq_bind, Option.some_bind,
    if_pos (⟨hval, by omega⟩ : (⟨hh, mi⟩ : Time).valid ∧ 0 ≤ 59)]

theorem parseDateTimeChars_pads (y m dd hh mi : Nat)
    (hvd : (⟨y, m, dd⟩ : Date).valid) (hvt : (⟨hh, mi⟩ : Time).valid) :
    parseDateTimeChars
        (pad4 y ++ pad2 m ++ pad2 dd ++ 'T' :: (pad2 hh ++ pad2 mi ++ pad2 0))
      = some ⟨⟨y, m, dd⟩, ⟨hh, mi⟩⟩ := by
  have hdate := parseDateChars_pads y m dd hvd
  have htime := parseTimeChars_pads hh mi hvt
  simp only [pad4, pad2, List.cons_append, List.nil_append] at hdate htime
  simp only [pad4, pad2, List.cons_append, List.nil_append, parseDateTimeChars,
    hdate, htime, Option.pure_def, Option.bind_eq_bind, Option.some_bind,
    if_pos rfl]
  simp

/-- Printed dates parse back to themselves. -/
theorem parseDate_print (d : Date) (h : d.valid) :
    parseDateChars (printDate d).data = some d := by
  obtain ⟨y, m, dd⟩ := d
  exact parseDateChars_pads y m dd h

/-- Printed date-times parse back to themselves. -/
theorem parseDateTime_print (dt : DateTime) (h : dt.valid) :
    parseDateTimeChars (printDateTime dt).data = some dt := by
  obtain ⟨⟨y, m, dd⟩, ⟨hh, mi⟩⟩ := dt
  exact parseDateTimeChars_pads y m dd hh mi h.1 h.2

/-- A printed temporal property parses and classifies back to the same
value, given valid fields and a registry resolving its zone. -/
theorem parseTemporal_print (reg : List (String × Timezone)) (nm : String)
    (et : EventTime) (hv : et.valid) (hr : ResolvesET reg et) :
    parseTemporal reg (temporalProp nm et) = .ok et := by
  cases et with
  | allday d =>
    simp [temporalProp, parseTemporal, getParam, parseDate_print d hv]
  | floating dt =>
    simp [temporalProp, parseTemporal, getParam, parseDateTime_print dt hv]
  | localized dt tz =>
    have hne : ("TZID" : String) ≠ "VALUE" := by decide
    unfold ResolvesET at hr
    simp [temporalProp, parseTemporal, getParam, hne,
      parseDateTime_print dt hv, hr]

theorem temporalProp_name (nm : String) (et : EventTime) :
    (temporalProp nm et).name = nm := by
  cases et <;> rfl

theorem tzBlock_name (tz : Timezone) : (tzBlock tz).name = "VTIMEZONE" := rfl

theorem eventTzBlocks_names (e : Event) :
    ∀ n ∈ eventTzBlocks e, n.name = "VTIMEZONE" := by
  intro n hn
  unfold eventTzBlocks at hn
  split at hn <;> (try split at hn) <;> simp_all [tzBlock] <;>
    rcases hn with rfl | rfl <;> rfl

theorem findNode_vevent (ns : List Node) (v : Node) (hv : v.name = "VEVENT")
    (h : ∀ n ∈ ns, n.name = "VTIMEZONE") :
    findNode "VEVENT" (ns ++ [v]) = some v := by
  induction ns with
  | nil => simp [findNode, hv]
  | cons a rest ih =>
    have ha := h a (by simp)
    simp only [List.cons_append, findNode, ha]
    rw [if_neg (by decide)]
    exact ih (fun n hn => h n (by simp [hn]))

/-- The serializer's output designates exactly the event component it
wrote. -/
theorem veventProps_raw (e : Event) :
    veventProps e.raw = some (veventNode e).props := by
  unfold veventProps Event.raw
  dsimp only
  rw [if_neg (by decide)]
  rw [findNode_vevent _ _ rfl (eventTzBlocks_names e)]
  rfl

theorem findProp_uid (e : Event) :
    findProp "UID" (veventNode e).props = some ⟨"UID", [], e.uid⟩ := by
  unfold veventNode
  simp [findProp]

theorem findProp_summary (e : Event) :
    findProp "SUMMARY" (veventNode e).props = some ⟨"SUMMARY", [], e.summary⟩ := by
  unfold veventNode
  simp [findProp]

theorem findProp_dtstart (e : Event) :
    findProp "DTSTART" (veventNode e).props = some (temporalProp "DTSTART" e.start) := by
  unfold veventNode
  simp [findProp, temporalProp_name]

theorem findProp_dtend (e : Event) :
    findProp "DTEND" (veventNode e).props = some (temporalProp "DTEND" e.stop) := by
  unfold veventNode
  simp [findProp, temporalProp_name]

theorem findProp_rrule (e : Event) :
    (findProp "RRULE" (veventNode e).props).map ContentLine.value = e.rrule := by
  unfold veventNode
  cases e.rrule <;> simp [findProp, temporalProp_name]

/-- Reparsing the serializer's output recovers the event: the canonical
text of an event with valid temporal fields, resolvable zones and ordered
start/end parses back to an equal event value. -/
theorem fromString_raw (reg : List (String × Timezone)) (e : Event)
    (hsv : e.start.valid) (htv : e.stop.valid)
    (hr1 : ResolvesET reg e.start) (hr2 : ResolvesET reg e.stop)
    (hord : ¬ e.stop.instantMin < e.start.instantMin) :
    Event.fromString reg e.raw e.href e.etag e.calendar e.locale = .ok e := by
  unfold Event.fromString
  rw [veventProps_raw e]
  dsimp only
  rw [findProp_summary e]
  dsimp only
  rw [findProp_dtstart e]
  dsimp only
  rw [parseTemporal_print reg "DTSTART" e.start hsv hr1]
  dsimp only
  have hstop : resolveStop reg (veventNode e).props e.start = .ok e.stop := by
    unfold resolveStop
    rw [findProp_dtend e]
    dsimp only
    exact parseTemporal_print reg "DTEND" e.stop htv hr2
  rw [hstop]
  dsimp only
  rw [if_neg hord]
  have huid : ((findProp "UID" (veventNode e).props).map ContentLine.value).getD ""
      = e.uid := by
    rw [findProp_uid e]
    rfl
  rw [huid, findProp_rrule e]

/-- Parsing fixes the provenance fields from the call's arguments and
enforces start ≤ end. -/
theorem fromString_fields (reg : List (String × Timezone)) (text : Component)
    (href etag : Option String) (cal : String) (loc : Locale) (e : Event)
    (hp : Event.fromString reg text href etag cal loc = .ok e) :
    e.calendar = cal ∧ e.href = href ∧ e.etag = etag ∧ e.locale = loc
    ∧ ¬ e.stop.instantMin < e.start.instantMin := by
  unfold Event.fromString at hp
  cases hv : veventProps text with
  | none => rw [hv] at hp; exact Except.noConfusion hp
  | some props =>
  rw [hv] at hp
  dsimp only at hp
  cases hsm : findProp "SUMMARY" props with
  | none => rw [hsm] at hp; exact Except.noConfusion hp
  | some sm =>
  rw [hsm] at hp
  dsimp only at hp
  cases hds : findProp "DTSTART" props with
  | none => rw [hds] at hp; exact Except.noConfusion hp
  | some ds =>
  rw [hds] at hp
  dsimp only at hp
  cases hst : parseTemporal reg ds with
  | error err => rw [hst] at hp; exact Except.noConfusion hp
  | ok st =>
  rw [hst] at hp
  dsimp only at hp
  cases hre : resolveStop reg props st with
  | error err => rw [hre] at hp; exact Except.noConfusion hp
  | ok en =>
  rw [hre] at hp
  dsimp only at hp
  by_cases hord : en.instantMin < st.instantMin
  · rw [if_pos hord] at hp
    exact Except.noConfusion hp
  · rw [if_neg hord] at hp
    have he := Except.ok.inj hp
    refine ⟨by rw [← he], by rw [← he], by rw [← he], by rw [← he], ?_⟩
    have h1 : e.stop = en := by rw [← he]
    have h2 : e.start = st := by rw [← he]
    rw [h1, h2]
    exact hord

/-- Without a recurrence rule the short label is the base label. -/
theorem relative_to_nonrecurring (e : Event) (day : Date) (h : e.rrule = none) :
    e.relative_to day = e.relativeLabel day := by
  have hrec : e.recurring = false := by simp [Event.recurring, h]
  unfold Event.relative_to
  cases hx : e.relativeLabel day <;> simp [hrec, hx, Except.map]

/-! ## Claims -/

set_option maxRecDepth 10000 in
/-- C1 counterexample: the zone-aware text `event_dt_simple` (no embedded
timezone block) is well formed — it parses — yet serializing the parse
yields text that is NOT normalize-equal to the input: the output embeds a
synthesized `VTIMEZONE` block the input lacks, which is exactly why
`test_raw_dt` compares `event.raw` against the separate fixture
`event_dt_simple_inkl_vtimezone` rather than against its input. -/
theorem c1_counterexample :
    Event.fromString testRegistry event_dt_simple none none "foobar" testLocale
      = .ok eventDt
    ∧ normalize_component eventDt.raw ≠ normalize_component event_dt_simple := by
  refine ⟨by rfl, ?_⟩
  decide

/-- C1 (amended): serializing a parse yields the canonical calendar text —
the event wrapped in a `VCALENDAR` with a synthesized timezone-transition
block per zone — so `normalize(serialize(parse(T)))` equals `normalize(T)`
only when `T` is already in that canonical form; in general the round trip
is stable instead: reparsing the serialized text recovers the same event,
hence normalize ∘ serialize ∘ parse is the identity on every serialized
output (zones with no daylight-saving transitions included, their block
carrying a single rule). -/
theorem c1_roundtrip_canonical (reg : List (String × Timezone)) (text : Component)
    (href etag : Option String) (cal : String) (loc : Locale) (e : Event)
    (hp : Event.fromString reg text href etag cal loc = .ok e)
    (hsv : e.start.valid) (htv : e.stop.valid)
    (hr1 : ResolvesET reg e.start) (hr2 : ResolvesET reg e.stop) :
    Event.fromString reg e.raw href etag cal loc = .ok e
    ∧ (Event.fromString reg e.raw href etag cal loc).map
        (fun e2 => normalize_component e2.raw) = .ok (normalize_component e.raw) := by
  obtain ⟨hc, hh, he, hl, hord⟩ := fromString_fields reg text href etag cal loc e hp
  have key := fromString_raw reg e hsv htv hr1 hr2 hord
  rw [hc, hh, he, hl] at key
  exact ⟨key, by rw [key]; rfl⟩

/-- C1 witness: the round trip of `event_dt_simple` through `eventDt`. -/
theorem c1_roundtrip_canonical_witness :
    Event.fromString testRegistry event_dt_simple none none "foobar" testLocale
        = .ok eventDt
    ∧ eventDt.start.valid ∧ eventDt.stop.valid
    ∧ ResolvesET testRegistry eventDt.start ∧ ResolvesET testRegistry eventDt.stop
    ∧ (Event.fromString testRegistry eventDt.raw none none "foobar" testLocale
          = .ok eventDt
        ∧ (Event.fromString testRegistry eventDt.raw none none "foobar" testLocale).map
            (fun e2 => normalize_component e2.raw)
            = .ok (normalize_component eventDt.raw)) :=
  ⟨by rfl, by decide, by decide, by decide, by decide,
    c1_roundtrip_canonical testRegistry event_dt_simple none none "foobar" testLocale
      eventDt (by rfl) (by decide) (by decide) (by decide) (by decide)⟩

/-- C2 counterexample: on the all-day event `eventD`, calling
`update_start_end` with zone-aware times does not return a fresh variant
value leaving the input unchanged — the call, as `test_transform_event`
observes on the same object, changes the event value (its runtime
class/variant included) and returns `None`: the post/return pair has a
post-state differing from `eventD`, with a different variant, and no
returned value. -/
theorem c2_counterexample :
    (eventD.update_start_end nsLoc neLoc).map
      (fun p => (decide (p.1 = eventD), decide (p.1.variant = eventD.variant), p.2.isSome))
      = .ok (false, false, false) := by
  rfl

/-- C2 (amended): `update_start_end` mutates the event in place — on a
well-ordered new start/end the post-state of the object has the new
temporal fields, its variant is re-derived from the shape of the new
start, and the method returns `None`; the event value is unchanged only in
the degenerate case where the new start and end already equal the old
ones. -/
theorem c2_update_start_end_inplace (e : Event) (ns ne : EventTime)
    (h : ¬ ne.instantMin < ns.instantMin) :
    e.update_start_end ns ne = .ok ({ e with start := ns, stop := ne }, none)
    ∧ ({ e with start := ns, stop := ne } : Event).variant = classify ns
    ∧ (({ e with start := ns, stop := ne } : Event) = e ↔ e.start = ns ∧ e.stop = ne) := by
  refine ⟨?_, rfl, ?_⟩
  · unfold Event.update_start_end
    rw [if_neg h]
  · constructor
    · intro heq
      exact ⟨(congrArg Event.start heq).symm, (congrArg Event.stop heq).symm⟩
    · rintro ⟨h1, h2⟩
      rw [← h1, ← h2]

/-- C2 witness: the amended statement instantiated on `eventD`. -/
theorem c2_update_start_end_inplace_witness :
    (¬ neLoc.instantMin < nsLoc.instantMin)
    ∧ (eventD.update_start_end nsLoc neLoc
          = .ok ({ eventD with start := nsLoc, stop := neLoc }, none)
        ∧ ({ eventD with start := nsLoc, stop := neLoc } : Event).variant = classify nsLoc
        ∧ (({ eventD with start := nsLoc, stop := neLoc } : Event) = eventD
            ↔ eventD.start = nsLoc ∧ eventD.stop = neLoc)) :=
  ⟨by decide, c2_update_start_end_inplace eventD nsLoc neLoc (by decide)⟩

/-- C3: `update_start_end` on an all-day event with zone-aware, well-ordered
new start/end yields a LocalizedEvent whose uid, summary, recurring flag,
raw rule and provenance fields (calendar, href, etag) are those of the
original event. -/
theorem c3_allday_to_localized (e : Event) (d1 d2 : DateTime) (tz1 tz2 : Timezone)
    (hall : e.variant = .allday)
    (hord : (EventTime.localized d1 tz1).instantMin ≤ (EventTime.localized d2 tz2).instantMin) :
    ∃ post, e.update_start_end (.localized d1 tz1) (.localized d2 tz2) = .ok (post, none)
      ∧ post.variant = .localized
      ∧ post.uid = e.uid ∧ post.summary = e.summary
      ∧ post.recurring = e.recurring ∧ post.rrule = e.rrule
      ∧ post.calendar = e.calendar ∧ post.href = e.href ∧ post.etag = e.etag := by
  refine ⟨{ e with start := .localized d1 tz1, stop := .localized d2 tz2 },
    ?_, rfl, rfl, rfl, rfl, rfl, rfl, rfl, rfl⟩
  unfold Event.update_start_end
  rw [if_neg (by omega)]

/-- C3 witness: the transformation of `test_transform_event` instantiated
on `eventD`. -/
theorem c3_allday_to_localized_witness :
    eventD.variant = .allday
    ∧ (EventTime.localized ⟨⟨2014, 4, 9⟩, ⟨9, 30⟩⟩ berlin).instantMin
        ≤ (EventTime.localized ⟨⟨2014, 4, 9⟩, ⟨10, 30⟩⟩ berlin).instantMin
    ∧ (∃ post, eventD.update_start_end
          (.localized ⟨⟨2014, 4, 9⟩, ⟨9, 30⟩⟩ berlin)
          (.localized ⟨⟨2014, 4, 9⟩, ⟨10, 30⟩⟩ berlin) = .ok (post, none)
        ∧ post.variant = .localized
        ∧ post.uid = eventD.uid ∧ post.summary = eventD.summary
        ∧ post.recurring = eventD.recurring ∧ post.rrule = eventD.rrule
        ∧ post.calendar = eventD.calendar ∧ post.href = eventD.href
        ∧ post.etag = eventD.etag) :=
  ⟨rfl, by decide,
    c3_allday_to_localized eventD ⟨⟨2014, 4, 9⟩, ⟨9, 30⟩⟩ ⟨⟨2014, 4, 9⟩, ⟨10, 30⟩⟩
      berlin berlin rfl (by decide)⟩

/-- C9: attribute access on a `Namespace` resolves through the dict items
only — a stored key is returned, anything else (the names of dict methods
included) raises AttributeError — and attribute assignment stores a dict
item. -/
theorem c9_namespace_attribute (α : Type) (n : Namespace α) (s : String) (v : α)
    (m : String) (hm : m ∈ dictMethodNames) (hmk : dictGet n m = none) :
    n.getattribute s = (match dictGet n s with
      | some w => .ok w
      | none => .error .mk)
    ∧ n.getattribute m = .error .mk
    ∧ (n.setattr s v).getattribute s = .ok v := by
  refine ⟨rfl, ?_, ?_⟩
  · unfold Namespace.getattribute
    rw [hmk]
  · unfold Namespace.setattr Namespace.getattribute
    rw [dictGet_dictSet]

/-- C9 witness: a namespace holding one key, probed at that key and at the
dict method name `get`. -/
theorem c9_namespace_attribute_witness :
    ("get" ∈ dictMethodNames)
    ∧ dictGet [("path", "/tmp")] "get" = none
    ∧ (Namespace.getattribute [("path", "/tmp")] "path"
          = (match dictGet [("path", "/tmp")] "path" with
            | some w => .ok w
            | none => .error .mk)
        ∧ Namespace.getattribute [("path", "/tmp")] "get" = .error .mk
        ∧ (Namespace.setattr [("path", "/tmp")] "path" "/var").getattribute "path"
            = .ok "/var") :=
  ⟨by decide, by decide,
    c9_namespace_attribute String [("path", "/tmp")] "path" "/var" "get"
      (by decide) (by decide)⟩

/-- C4: `relative_to` fails with a RangeError exactly when the reference
day lies outside the inclusive interval `[startDay, stopDay]` (days
computed in `local_timezone` after converting LocalizedEvent times, which
is how `Event.startDay`/`Event.stopDay` are derived); inside the interval
it returns a label without raising. -/
theorem c4_relative_to_range (e : Event) (day : Date) :
    (e.relative_to day = .error .mk
      ↔ (dayKey day < dayKey e.startDay ∨ dayKey e.stopDay < dayKey day))
    ∧ ((dayKey e.startDay ≤ dayKey day ∧ dayKey day ≤ dayKey e.stopDay)
        → ∃ l, e.relative_to day = .ok l) := by
  constructor
  · constructor
    · intro h
      by_contra hc
      obtain ⟨l, hl⟩ := relative_to_inRange e day hc
      rw [hl] at h
      simp at h
    · intro h
      unfold Event.relative_to Event.relativeLabel
      rw [if_pos h]
      rfl
  · intro h
    exact relative_to_inRange e day (by omega)

/-- C5: a multi-day, non-recurring event with `unicode_symbols` set, on a
reference day inside its range: when all-day, the start day is labelled
`↦ <summary>`, every interior day `↔ <summary>` and the end day
`⇥ <summary>`; when timed, the start day is labelled
`<start time>→ : <summary>`, every interior day `→ → : <summary>` and the
end day `→ <end time>: <summary>`. -/
theorem c5_multiday_glyphs (e : Event) (day : Date)
    (huni : e.locale.unicode_symbols = true)
    (hnr : e.rrule = none)
    (hmulti : dayKey e.startDay < dayKey e.stopDay)
    (hlo : dayKey e.startDay ≤ dayKey day) (hhi : dayKey day ≤ dayKey e.stopDay) :
    (e.timed = false →
      (dayKey day = dayKey e.startDay →
          e.relative_to day = .ok ("↦ " ++ e.summary))
      ∧ (dayKey e.startDay < dayKey day → dayKey day < dayKey e.stopDay →
          e.relative_to day = .ok ("↔ " ++ e.summary))
      ∧ (dayKey day = dayKey e.stopDay →
          e.relative_to day = .ok ("⇥ " ++ e.summary)))
    ∧ (e.timed = true →
      (dayKey day = dayKey e.startDay →
          e.relative_to day = .ok (e.startTimeStr ++ "→ : " ++ e.summary))
      ∧ (dayKey e.startDay < dayKey day → dayKey day < dayKey e.stopDay →
          e.relative_to day = .ok ("→ → : " ++ e.summary))
      ∧ (dayKey day = dayKey e.stopDay →
          e.relative_to day = .ok ("→ " ++ e.stopTimeStr ++ ": " ++ e.summary))) := by
  have hne : dayKey e.startDay ≠ dayKey e.stopDay := Nat.ne_of_lt hmulti
  have hin : ¬ (dayKey day < dayKey e.startDay ∨ dayKey e.stopDay < dayKey day) := by
    omega
  rw [relative_to_nonrecurring e day hnr]
  unfold Event.relativeLabel
  rw [if_neg hin, if_neg hne]
  constructor
  · intro ht
    refine ⟨?_, ?_, ?_⟩
    · intro heq
      simp [ht, heq, huni, symFirst]
    · intro h1 h2
      have n1 : ¬ dayKey day = dayKey e.startDay := by omega
      have n2 : ¬ dayKey day = dayKey e.stopDay := by omega
      simp [ht, n1, n2, huni, symBoth]
    · intro heq
      have n1 : ¬ dayKey day = dayKey e.startDay := by omega
      simp [ht, n1, heq, huni, symLast]
      intro hcontra
      exact absurd hcontra (by omega)
  · intro ht
    refine ⟨?_, ?_, ?_⟩
    · intro heq
      simp only [ht, if_true, heq, if_pos rfl, huni, symRight]
      simp only [String.append_assoc]
      rfl
    · intro h1 h2
      have n1 : ¬ dayKey day = dayKey e.startDay := by omega
      have n2 : ¬ dayKey day = dayKey e.stopDay := by omega
      simp [ht, n1, n2, huni, symRight]
    · intro heq
      have n1 : ¬ dayKey day = dayKey e.startDay := by omega
      simp [ht, n1, heq, huni, symRight]
      intro hcontra
      exact absurd hcontra (by omega)

/-- C5 witness: the all-day multi-day event of `test_event_d_long` on its
interior day 2014-04-10. -/
theorem c5_multiday_glyphs_witness :
    eventDLong.locale.unicode_symbols = true
    ∧ eventDLong.rrule = none
    ∧ dayKey eventDLong.startDay < dayKey eventDLong.stopDay
    ∧ dayKey eventDLong.startDay ≤ dayKey ⟨2014, 4, 10⟩
    ∧ dayKey ⟨2014, 4, 10⟩ ≤ dayKey eventDLong.stopDay
    ∧ ((eventDLong.timed = false →
        (dayKey ⟨2014, 4, 10⟩ = dayKey eventDLong.startDay →
            eventDLong.relative_to ⟨2014, 4, 10⟩ = .ok ("↦ " ++ eventDLong.summary))
        ∧ (dayKey eventDLong.startDay < dayKey ⟨2014, 4, 10⟩ →
            dayKey ⟨2014, 4, 10⟩ < dayKey eventDLong.stopDay →
            eventDLong.relative_to ⟨2014, 4, 10⟩ = .ok ("↔ " ++ eventDLong.summary))
        ∧ (dayKey ⟨2014, 4, 10⟩ = dayKey eventDLong.stopDay →
            eventDLong.relative_to ⟨2014, 4, 10⟩ = .ok ("⇥ " ++ eventDLong.summary)))
      ∧ (eventDLong.timed = true →
        (dayKey ⟨2014, 4, 10⟩ = dayKey eventDLong.startDay →
            eventDLong.relative_to ⟨2014, 4, 10⟩
              = .ok (eventDLong.startTimeStr ++ "→ : " ++ eventDLong.summary))
        ∧ (dayKey eventDLong.startDay < dayKey ⟨2014, 4, 10⟩ →
            dayKey ⟨2014, 4, 10⟩ < dayKey eventDLong.stopDay →
            eventDLong.relative_to ⟨2014, 4, 10⟩ = .ok ("→ → : " ++ eventDLong.summary))
        ∧ (dayKey ⟨2014, 4, 10⟩ = dayKey eventDLong.stopDay →
            eventDLong.relative_to ⟨2014, 4, 10⟩
              = .ok ("→ " ++ eventDLong.stopTimeStr ++ ": " ++ eventDLong.summary)))) :=
  ⟨rfl, rfl, by decide, by decide, by decide,
    c5_multiday_glyphs eventDLong ⟨2014, 4, 10⟩ rfl rfl (by decide) (by decide)
      (by decide)⟩

/-- C6 counterexample: the multi-day all-day event of `test_event_d_long`
(2014-04-09 to 2014-04-11, locale with `dateformat = %d.%m.` and
`longdateformat = %d.%m.%Y`) is described as `09.04. - 11.04.2014: Another
Event` — the start is NOT rendered with the longdateformat template, which
would give `09.04.2014 - 11.04.2014: Another Event`. -/
theorem c6_counterexample :
    eventDLong.event_description = "09.04. - 11.04.2014: Another Event"
    ∧ eventDLong.event_description
        ≠ strftime eventDLong.locale.longdateformat ⟨⟨2014, 4, 9⟩, ⟨0, 0⟩⟩ ++ " - " ++
            strftime eventDLong.locale.longdateformat ⟨⟨2014, 4, 11⟩, ⟨0, 0⟩⟩ ++ ": " ++
            eventDLong.summary := by
  refine ⟨rfl, ?_⟩
  decide

/-- C6 (amended): a multi-day all-day event is described as
`<dateformat(start)> - <longdateformat(end)>: <summary>` — the start date
with the short `dateformat` template, the end date with `longdateformat`. -/
theorem c6_multiday_allday_description (e : Event) (sd ed : Date)
    (hs : e.start = .allday sd) (he : e.stop = .allday ed)
    (hmulti : dayKey sd < dayKey ed) (hnr : e.rrule = none) :
    e.event_description =
      strftime e.locale.dateformat ⟨sd, ⟨0, 0⟩⟩ ++ " - " ++
        strftime e.locale.longdateformat ⟨ed, ⟨0, 0⟩⟩ ++ ": " ++ e.summary := by
  unfold Event.event_description Event.descBase Event.timed
    Event.startDay Event.stopDay Event.localStartDT Event.localStopDT
  rw [hs, he, hnr]
  simp only []
  rw [if_neg (by simpa using Nat.ne_of_lt hmulti), if_neg (by simp)]
  exact String.append_empty _

/-- C6 witness: the amended statement instantiated on the event of
`test_event_d_long`. -/
theorem c6_multiday_allday_description_witness :
    eventDLong.start = .allday ⟨2014, 4, 9⟩
    ∧ eventDLong.stop = .allday ⟨2014, 4, 11⟩
    ∧ dayKey ⟨2014, 4, 9⟩ < dayKey ⟨2014, 4, 11⟩
    ∧ eventDLong.rrule = none
    ∧ eventDLong.event_description =
        strftime eventDLong.locale.dateformat ⟨⟨2014, 4, 9⟩, ⟨0, 0⟩⟩ ++ " - " ++
          strftime eventDLong.locale.longdateformat ⟨⟨2014, 4, 11⟩, ⟨0, 0⟩⟩ ++ ": " ++
          eventDLong.summary :=
  ⟨rfl, rfl, by decide, rfl,
    c6_multiday_allday_description eventDLong ⟨2014, 4, 9⟩ ⟨2014, 4, 11⟩ rfl rfl
      (by decide) rfl⟩

/-- C7: a parsed event's end is resolved in order — the explicit `DTEND`
property when present; otherwise start plus the explicit `DURATION`
property; otherwise end = start.  A zero-length event (start = end) is a
legal parse result and formats without raising. -/
theorem c7_end_resolution (reg : List (String × Timezone)) (text : Component)
    (href etag : Option String) (cal : String) (loc : Locale)
    (e : Event) (props : List ContentLine)
    (hv : veventProps text = some props)
    (hp : Event.fromString reg text href etag cal loc = .ok e) :
    (∀ p, findProp "DTEND" props = some p → parseTemporal reg p = .ok e.stop)
    ∧ (∀ p k, findProp "DTEND" props = none → findProp "DURATION" props = some p →
        parseDuration p.value = some k → e.stop = e.start.addMin k)
    ∧ (findProp "DTEND" props = none → findProp "DURATION" props = none →
        e.stop = e.start)
    ∧ (e.start = e.stop → ∃ l, e.relative_to e.startDay = .ok l) := by
  unfold Event.fromString at hp
  rw [hv] at hp
  dsimp only at hp
  cases hsm : findProp "SUMMARY" props with
  | none => rw [hsm] at hp; exact Except.noConfusion hp
  | some sm =>
  rw [hsm] at hp
  dsimp only at hp
  cases hds : findProp "DTSTART" props with
  | none => rw [hds] at hp; exact Except.noConfusion hp
  | some ds =>
  rw [hds] at hp
  dsimp only at hp
  cases hst : parseTemporal reg ds with
  | error err => rw [hst] at hp; exact Except.noConfusion hp
  | ok st =>
  rw [hst] at hp
  dsimp only at hp
  cases hre : resolveStop reg props st with
  | error err => rw [hre] at hp; exact Except.noConfusion hp
  | ok en =>
  rw [hre] at hp
  dsimp only at hp
  by_cases hord : en.instantMin < st.instantMin
  · rw [if_pos hord] at hp
    exact Except.noConfusion hp
  · rw [if_neg hord] at hp
    have he := Except.ok.inj hp
    have hstart : e.start = st := by rw [← he]
    have hstop : e.stop = en := by rw [← he]
    refine ⟨?_, ?_, ?_, ?_⟩
    · intro p hpp
      unfold resolveStop at hre
      rw [hpp] at hre
      dsimp only at hre
      rw [hstop]
      exact hre
    · intro p k h1 h2 h3
      unfold resolveStop at hre
      rw [h1] at hre
      dsimp only at hre
      rw [h2] at hre
      dsimp only at hre
      rw [h3] at hre
      dsimp only at hre
      rw [hstop, hstart]
      exact (Except.ok.inj hre).symm
    · intro h1 h2
      unfold resolveStop at hre
      rw [h1] at hre
      dsimp only at hre
      rw [h2] at hre
      dsimp only at hre
      rw [hstop, hstart]
      exact (Except.ok.inj hre).symm
    · intro hse
      have hdays : e.stopDay = e.startDay := by
        unfold Event.stopDay Event.startDay Event.localStopDT Event.localStartDT
        rw [← hse]
      exact relative_to_inRange e e.startDay (by rw [hdays]; omega)

/-- C7 witness: the duration-ended event of `test_event_dt_duration`. -/
theorem c7_end_resolution_witness :
    veventProps event_dt_duration = some event_dt_duration.props
    ∧ Event.fromString testRegistry event_dt_duration none none "foobar" testLocale
        = .ok eventDt
    ∧ ((∀ p, findProp "DTEND" event_dt_duration.props = some p →
          parseTemporal testRegistry p = .ok eventDt.stop)
      ∧ (∀ p k, findProp "DTEND" event_dt_duration.props = none →
          findProp "DURATION" event_dt_duration.props = some p →
          parseDuration p.value = some k → eventDt.stop = eventDt.start.addMin k)
      ∧ (findProp "DTEND" event_dt_duration.props = none →
          findProp "DURATION" event_dt_duration.props = none →
          eventDt.stop = eventDt.start)
      ∧ (eventDt.start = eventDt.stop →
          ∃ l, eventDt.relative_to eventDt.startDay = .ok l)) :=
  ⟨rfl, by rfl,
    c7_end_resolution testRegistry event_dt_duration none none "foobar" testLocale
      eventDt event_dt_duration.props rfl (by rfl)⟩

/-- C8: with `unicode_symbols` set, a recurring event's short label is the
base label with the trailing glyph ` ⟳` appended, and its description is
the base description with a newline and `Repeat: <raw rule text>` appended;
a non-recurring event gets exactly the base label and base description,
with neither suffix. -/
theorem c8_recurrence_annotation (e : Event) (day : Date) (r : String)
    (huni : e.locale.unicode_symbols = true) :
    (e.rrule = some r →
      e.relative_to day = (e.relativeLabel day).map (fun l => l ++ " ⟳")
      ∧ e.event_description = e.descBase ++ ("\nRepeat: " ++ r))
    ∧ (e.rrule = none →
      e.relative_to day = e.relativeLabel day
      ∧ e.event_description = e.descBase) := by
  constructor
  · intro hr
    have hrec : e.recurring = true := by simp [Event.recurring, hr]
    constructor
    · unfold Event.relative_to
      simp [hrec, symRepeat, huni]
    · unfold Event.event_description
      rw [hr]
  · intro hr
    have hrec : e.recurring = false := by simp [Event.recurring, hr]
    constructor
    · unfold Event.relative_to
      cases hx : e.relativeLabel day <;> simp [hrec, hx, Except.map]
    · unfold Event.event_description
      rw [hr]
      exact String.append_empty _

/-- C8 witness: the recurring event of `test_event_rr` and the
non-recurring event of `test_event_d_long`, at 2014-04-09. -/
theorem c8_recurrence_annotation_witness :
    eventDtRR.locale.unicode_symbols = true
    ∧ ((eventDtRR.rrule = some "FREQ=DAILY;COUNT=10" →
        eventDtRR.relative_to ⟨2014, 4, 9⟩
            = (eventDtRR.relativeLabel ⟨2014, 4, 9⟩).map (fun l => l ++ " ⟳")
        ∧ eventDtRR.event_description
            = eventDtRR.descBase ++ ("\nRepeat: " ++ "FREQ=DAILY;COUNT=10"))
      ∧ (eventDtRR.rrule = none →
        eventDtRR.relative_to ⟨2014, 4, 9⟩ = eventDtRR.relativeLabel ⟨2014, 4, 9⟩
        ∧ eventDtRR.event_description = eventDtRR.descBase)) :=
  ⟨rfl, c8_recurrence_annotation eventDtRR ⟨2014, 4, 9⟩ "FREQ=DAILY;COUNT=10" rfl⟩

/-- C10: evaluation of `Section._parse_bool_string` at the failing input
`~/Config` (home `/root`): the code returns the tilde-expansion of the
stripped, LOWERCASED value — not of the value itself as its docstring
(`otherwise it returns the value`) promises — while the true/false
comparisons behave as documented. -/
theorem c10_parse_bool_string_eval :
    Section._parse_bool_string "/root" "~/Config" = .pyStr "/root/config"
    ∧ Section._parse_bool_string "/root" "~/Config" ≠ .pyStr "/root/Config"
    ∧ Section._parse_bool_string "/root" " True " = .pyBool true
    ∧ Section._parse_bool_string "/root" "False" = .pyBool false := by
  refine ⟨rfl, ?_, rfl, rfl⟩
  decide

end Khal
